import Mathlib

/-!
Verification development for the scrappy_v2 core: a shallow embedding of
the Keyed Document Store (`src/storage/handler.py`), the Format Conversion
Engine (`src/formatters/converter.py`) and the Input/Path Safety Layer
(`src/utils/security.py`), together with theorems settling the spec's
testable properties against the embedded code.
-/

namespace Scrappy

/-- JSON-like payload values: the universal data type flowing through the
core (Python's `str`/`int`/`bool`/`None`/`list`/`dict`).  Mappings are
insertion-ordered association lists with unique keys, mirroring Python
`dict` semantics.  Numbers are embedded as integers (the fragment the
claims exercise). -/
inductive Value where
  | str (s : String)
  | num (n : Int)
  | bool (b : Bool)
  | null
  | arr (items : List Value)
  | obj (fields : List (String × Value))

/-- A Record is a top-level mapping (Python `Dict[str, Any]`). -/
abbrev Record := List (String × Value)

/-- Python `d[k] = v` on an insertion-ordered dict: if the key is present
its value is updated in place (keeping its position), otherwise the pair
is appended at the end. -/
def dictUp (m : List (String × α)) (k : String) (v : α) : List (String × α) :=
  if m.any (fun p => p.1 = k) then
    m.map (fun p => if p.1 = k then (k, v) else p)
  else
    m ++ [(k, v)]

/-- Python `d.get(k, default)`. -/
def dictGetD (m : Record) (k : String) (d : Value) : Value :=
  match m.lookup k with
  | some v => v
  | none => d

/-- Python `v.get(k, default)` on an arbitrary value: succeeds when `v`
is a mapping, raises `AttributeError` otherwise (modelled as `Except`). -/
def vGetD (v : Value) (k : String) (d : Value) : Except String Value :=
  match v with
  | .obj fs => .ok (dictGetD fs k d)
  | _ => .error "AttributeError"

/-- `posixpath.join` for two components: an absolute second component
replaces the first; otherwise the parts are joined with a single slash. -/
def pjoin (a b : String) : String :=
  if b.data.take 1 = ['/'] then b
  else if a = "" ∨ a.data.getLast? = some '/' then a ++ b
  else a ++ "/" ++ b

/-- Python `s.startswith(pat)`. -/
def startsWithS (s pat : String) : Bool :=
  decide (s.data.take pat.data.length = pat.data)

/-- Python `s.lower()` (on its ASCII fragment). -/
def strLower (s : String) : String :=
  String.mk (s.data.map Char.toLower)

/-! ## Safety Layer (`src/utils/security.py`) -/

/-- Does the pattern occur as a contiguous run somewhere in the list? -/
def hasSub (pat : List Char) : List Char → Bool
  | [] => decide (pat = [])
  | c :: cs => decide ((c :: cs).take pat.length = pat) || hasSub pat cs

/-- `pat in s` — Python substring containment. -/
def containsSub (s pat : String) : Bool :=
  hasSub pat.data s.data

/-- Split a character list on `'/'` (`p.split('/')`): always at least one
piece, empty pieces for adjacent separators. -/
def splitSlash : List Char → List (List Char)
  | [] => [[]]
  | c :: cs =>
    match splitSlash cs with
    | [] => [[]]
    | h :: t => if c = '/' then [] :: h :: t else (c :: h) :: t

/-- Re-join path components with `'/'` (`'/'.join(comps)`). -/
def joinSlash : List (List Char) → List Char
  | [] => []
  | [x] => x
  | x :: y :: t => x ++ '/' :: joinSlash (y :: t)

/-- `posixpath.normpath`: collapse `.` and empty components, cancel a
`..` against a preceding real component, keep leading `..`s of a
relative path, preserve exactly-two leading slashes specially. -/
def normpath (p : String) : String :=
  if p = "" then "." else
  let initialSlashes : Nat :=
    if p.data.take 1 = ['/'] then
      if p.data.take 2 = ['/', '/'] ∧ ¬ p.data.take 3 = ['/', '/', '/'] then 2
      else 1
    else 0
  let newComps := (splitSlash p.data).foldl (fun acc comp =>
    if comp = [] ∨ comp = ['.'] then acc
    else if comp ≠ ['.', '.'] ∨ (initialSlashes = 0 ∧ acc = []) ∨
        (acc ≠ [] ∧ acc.getLast? = some ['.', '.']) then acc ++ [comp]
    else if acc ≠ [] then acc.dropLast else acc) []
  let res := String.mk (List.replicate initialSlashes '/' ++ joinSlash newComps)
  if res = "" then "." else res

/-- `posixpath.isabs`. -/
def isAbs (p : String) : Bool := p.data.take 1 = ['/']

/-- `SecurityManager.validate_file_path`: normalize the path, reject when
the normalized form still contains `..`, and reject an absolute path
unless it starts with one of `/tmp`, `/var/tmp`, or the current working
directory (passed explicitly as `cwd`). -/
def validateFilePath (cwd p : String) : Bool :=
  let np := normpath p
  if containsSub np ".." then false
  else if isAbs np then
    if startsWithS np "/tmp" ∨ startsWithS np "/var/tmp" ∨ startsWithS np cwd
    then true else false
  else true

/-- `os.path.basename` on the character list: the suffix after the last
slash (the accumulator is reset every time a `/` is seen). -/
def basenameChars (cs : List Char) : List Char :=
  cs.foldl (fun acc c => if c = '/' then [] else acc ++ [c]) []

/-- Python's Unicode-aware `\w` (the class matched by `re.sub`'s pattern
in `secure_filename`), modelled exactly on the Basic Latin and Latin-1
Supplement fragment (code points below `0x100`): ASCII alphanumerics and
underscore, plus the Latin-1 word characters `ª ² ³ µ ¹ º ¼ ½ ¾` and the
accented letters `À`–`ÿ` without `×` and `÷`.  (Word characters above
`0xFF` exist in the program but are outside the modelled fragment.) -/
def pyWordChar (c : Char) : Bool :=
  c.isAlphanum ∨ c = '_' ∨
  c.val = 0xAA ∨ (0xB2 ≤ c.val ∧ c.val ≤ 0xB3) ∨ c.val = 0xB5 ∨
  (0xB9 ≤ c.val ∧ c.val ≤ 0xBA) ∨ (0xBC ≤ c.val ∧ c.val ≤ 0xBE) ∨
  (0xC0 ≤ c.val ∧ c.val ≤ 0xD6) ∨ (0xD8 ≤ c.val ∧ c.val ≤ 0xF6) ∨
  (0xF8 ≤ c.val ∧ c.val ≤ 0xFF)

/-- The character class kept by `re.sub(r'[^\w\.\-]', '_', ·)`:
Python word characters, dot, hyphen. -/
def filenameOk (c : Char) : Bool :=
  pyWordChar c ∨ c = '.' ∨ c = '-'

/-- `SecurityManager.secure_filename`: drop directory components, replace
every character outside the allowed class by `_`, and fall back to the
fixed placeholder when the result is empty. -/
def secureFilename (filename : String) : String :=
  let base := basenameChars filename.data
  let cleaned := String.mk (base.map (fun c => if filenameOk c then c else '_'))
  if cleaned = "" then "unnamed_file" else cleaned

/-- The expansion of one character under Python `html.escape` with
`quote=True` (the default used by `sanitize_input`). -/
def escChar (c : Char) : List Char :=
  if c = '&' then "&amp;".data
  else if c = '<' then "&lt;".data
  else if c = '>' then "&gt;".data
  else if c = '"' then "&quot;".data
  else if c = Char.ofNat 39 then "&#x27;".data
  else [c]

/-- Python `html.escape(s)` (quote mode on). -/
def htmlEscape (s : String) : String :=
  String.mk (s.data.flatMap escChar)

/-- Does the lowercase token `tok` occur (case-insensitively) at the head
of `cs`? -/
def tokHere (tok cs : List Char) : Bool :=
  tok ≠ [] ∧ (cs.take tok.length).map Char.toLower = tok

/-- One `re.sub(tok, '', s, flags=IGNORECASE)` pass for a literal token:
scan left to right, deleting each leftmost non-overlapping match; the
fuel argument bounds the scan by the input length so the function is
structurally total. -/
def stripTokAux (tok : List Char) : Nat → List Char → List Char
  | 0, cs => cs
  | _ + 1, [] => []
  | fuel + 1, c :: cs =>
    if tokHere tok (c :: cs) then
      stripTokAux tok fuel ((c :: cs).drop tok.length)
    else
      c :: stripTokAux tok fuel cs

/-- Remove every leftmost non-overlapping case-insensitive occurrence of
`tok` from `cs` (semantics of `re.sub(tok, '', ·, flags=IGNORECASE)` for
a plain literal token). -/
def stripTok (tok cs : List Char) : List Char :=
  stripTokAux tok cs.length cs

/-- The two scheme tokens removed by `sanitize_input`. -/
def jsTok : List Char := "javascript:".data

/-- The `data:` scheme token. -/
def dataTok : List Char := "data:".data

/-- `SecurityManager.sanitize_input`: empty input maps to the empty
string; otherwise HTML-escape, then strip `javascript:` and `data:`
case-insensitively in single left-to-right passes. -/
def sanitizeInput (s : String) : String :=
  if s = "" then ""
  else String.mk (stripTok dataTok (stripTok jsTok (htmlEscape s).data))

/-- Case-insensitive occurrence test for a lowercase token at some
position of a character list (used to state the sanitization claims). -/
def hasTok (tok : List Char) : List Char → Bool
  | [] => false
  | c :: cs => tokHere tok (c :: cs) || hasTok tok cs

/-- Case-insensitive occurrence test on strings. -/
def containsTokCI (s : String) (tok : List Char) : Bool :=
  hasTok tok s.data

/-! ## Keyed Document Store (`src/storage/handler.py`)

The filesystem is abstracted to the observable content of the three
category directories: for each category, the insertion-ordered list of
`(identifier, record)` pairs whose `data.json` exists.  Genuine I/O
failure during `shutil.rmtree` is abstracted to a caller-supplied
predicate on `(category, identifier)`. -/

/-- The on-disk state of a `StorageHandler`: one directory of saved
records per scraper category. -/
structure StorageState where
  github : List (String × Record)
  website : List (String × Record)
  youtube : List (String × Record)

/-- A freshly initialized storage handler (all category directories
empty). -/
def emptyStore : StorageState := ⟨[], [], []⟩

/-- The directory contents for a category string (callers guard category
validity through `getStoragePath`). -/
def getDir (st : StorageState) (cat : String) : List (String × Record) :=
  if cat = "github" then st.github
  else if cat = "website" then st.website
  else if cat = "youtube" then st.youtube
  else []

/-- Replace the directory contents for a category string. -/
def setDir (st : StorageState) (cat : String) (l : List (String × Record)) :
    StorageState :=
  if cat = "github" then { st with github := l }
  else if cat = "website" then { st with website := l }
  else if cat = "youtube" then { st with youtube := l }
  else st

/-- `StorageHandler.get_storage_path`: dispatch on the scraper type,
raising `ValueError` for an unknown one. -/
def getStoragePath (base cat id : String) : Except String String :=
  if cat = "github" then .ok (pjoin (pjoin base "github") id)
  else if cat = "website" then .ok (pjoin (pjoin base "website") id)
  else if cat = "youtube" then .ok (pjoin (pjoin base "youtube") id)
  else .error ("Unknown scraper type: " ++ cat)

/-- `StorageHandler.save_data`: resolve the storage location, stamp
`saved_at` with the current time (overwriting any prior value at that
key), serialize the whole record at `<location>/data.json`, and return
the data path.  A previously saved record at the same key is fully
overwritten. -/
def saveData (base : String) (st : StorageState) (now cat id : String)
    (data : Record) : Except String (String × StorageState) :=
  match getStoragePath base cat id with
  | .error e => .error e
  | .ok storagePath =>
    let stamped := dictUp data "saved_at" (Value.str now)
    .ok (pjoin storagePath "data.json",
      setDir st cat (dictUp (getDir st cat) id stamped))

/-- `StorageHandler.load_data`: resolve the storage location, then return
the stored record, or `none` when no record exists at that key. -/
def loadData (base : String) (st : StorageState) (cat id : String) :
    Except String (Option Record) :=
  match getStoragePath base cat id with
  | .error e => .error e
  | .ok _ => .ok ((getDir st cat).lookup id)

/-- `StorageHandler._generate_summary`: the category-specific projection.
Absent source fields default to `"unknown"`/`0`; a present `repository`
or `channel` field that is not itself a mapping makes the nested `.get`
raise `AttributeError` (modelled as `Except.error`). -/
def generateSummary (cat : String) (data : Record) : Except String Record :=
  if cat = "github" then
    let repo := dictGetD data "repository" (Value.obj [])
    match vGetD repo "name" (Value.str "unknown"),
        vGetD repo "owner" (Value.str "unknown") with
    | .ok n, .ok o =>
      .ok [("name", n), ("owner", o),
        ("files_count", dictGetD data "files_count" (Value.num 0)),
        ("issues_count", dictGetD data "issues_count" (Value.num 0))]
    | .error e, _ => .error e
    | _, .error e => .error e
  else if cat = "website" then
    .ok [("domain", dictGetD data "domain" (Value.str "unknown")),
      ("pages_crawled", dictGetD data "pages_crawled" (Value.num 0)),
      ("assets_downloaded", dictGetD data "assets_downloaded" (Value.num 0))]
  else if cat = "youtube" then
    let channel := dictGetD data "channel" (Value.obj [])
    match vGetD channel "handle" (Value.str "unknown") with
    | .ok h =>
      .ok [("handle", h),
        ("videos_count", dictGetD data "videos_count" (Value.num 0))]
    | .error e => .error e
  else .ok []

/-- One entry of a listing: the tuple built for each identifier by
`StorageHandler.list_saved_data`. -/
structure StoredEntry where
  scraper_type : String
  identifier : String
  path : String
  saved_at : Value
  summary : Record

/-- Build the listing entry for one saved record; fails exactly when the
summary projection raises. -/
def mkListEntry (base cat id : String) (data : Record) :
    Except String StoredEntry :=
  match generateSummary cat data with
  | .error e => .error e
  | .ok s =>
    .ok ⟨cat, id, pjoin (pjoin (pjoin base cat) id) "data.json",
      dictGetD data "saved_at" (Value.str "unknown"), s⟩

/-- `StorageHandler.list_saved_data` with a category filter: raise for an
unknown category; otherwise build one entry per stored identifier,
silently skipping any identifier whose entry construction raises (the
`try/except` around the body of the loop). -/
def listSavedData (base : String) (st : StorageState) (cat : String) :
    Except String (List StoredEntry) :=
  if cat = "github" ∨ cat = "website" ∨ cat = "youtube" then
    .ok ((getDir st cat).filterMap
      (fun p => (mkListEntry base cat p.1 p.2).toOption))
  else .error ("Unknown scraper type: " ++ cat)

/-- `StorageHandler.delete_data`: resolve the storage location (raising
for an unknown category), return `false` when nothing exists at that
key, and otherwise remove the whole location with `shutil.rmtree` —
whose failure (`ioFail`) is caught and reported as `false` with the
record left in place. -/
def deleteData (base : String) (st : StorageState)
    (ioFail : String → String → Bool) (cat id : String) :
    Except String (Bool × StorageState) :=
  match getStoragePath base cat id with
  | .error e => .error e
  | .ok _ =>
    match (getDir st cat).lookup id with
    | none => .ok (false, st)
    | some _ =>
      if ioFail cat id then .ok (false, st)
      else .ok (true, setDir st cat ((getDir st cat).filter (fun p => p.1 ≠ id)))

/-- Save a batch of `(identifier, record)` pairs in order under one
category (folding `save_data`; a failing save leaves the state
unchanged, which cannot happen for a valid category). -/
def saveAll (base : String) (now cat : String)
    (pairs : List (String × Record)) (st : StorageState) : StorageState :=
  pairs.foldl (fun s p =>
    match saveData base s now cat p.1 p.2 with
    | .ok (_, s') => s'
    | .error _ => s) st

/-! ## Format Conversion Engine (`src/formatters/converter.py`) -/

/-- The single-quote character (used by Python `repr` of strings). -/
def sq : Char := Char.ofNat 39

mutual

/-- Python `repr` on the embedded value fragment: strings in single
quotes, `True`/`False`/`None`, lists in brackets, dicts in braces. -/
def pyRepr : Value → String
  | .str s => String.singleton sq ++ s ++ String.singleton sq
  | .num n => toString n
  | .bool b => if b then "True" else "False"
  | .null => "None"
  | .arr items => "[" ++ pyReprList items ++ "]"
  | .obj fields => "\x7b" ++ pyReprFields fields ++ "\x7d"

/-- `", ".join(repr(·))` over a list of values. -/
def pyReprList : List Value → String
  | [] => ""
  | [v] => pyRepr v
  | v :: rest => pyRepr v ++ ", " ++ pyReprList rest

/-- The comma-separated `key: value` body of a dict `repr`. -/
def pyReprFields : List (String × Value) → String
  | [] => ""
  | [(k, v)] => String.singleton sq ++ k ++ String.singleton sq ++ ": " ++ pyRepr v
  | (k, v) :: rest =>
    String.singleton sq ++ k ++ String.singleton sq ++ ": " ++ pyRepr v ++
      ", " ++ pyReprFields rest

end

/-- Python `str` on the embedded value fragment (`str` of a string is
the string itself; everything else coincides with `repr`). -/
def pyStr : Value → String
  | .str s => s
  | v => pyRepr v

/-- `isinstance(item, (str, int, float, bool))` — the scalar test used
when flattening lists for CSV. -/
def isScalar : Value → Bool
  | .str _ => true
  | .num _ => true
  | .bool _ => true
  | _ => false

/-- When `v` is a list in which every element is a dict, return those
dicts' field lists (the test `isinstance(value, list) and
all(isinstance(item, dict) for item in value)`); empty lists qualify
vacuously. -/
def asListOfDicts : Value → Option (List Record)
  | .arr items => items.mapM (fun item =>
      match item with
      | .obj fields => some fields
      | _ => none)
  | _ => none

/-- The scan in `FormatConverter._flatten_data`: the first top-level
field (in insertion order) whose value is a list of dicts. -/
def firstListOfDicts : Record → Option (List Record)
  | [] => none
  | (_, v) :: rest =>
    match asListOfDicts v with
    | some l => some l
    | none => firstListOfDicts rest

mutual

/-- `FormatConverter._flatten_dict` on one value bound to the flattened
key `pre ++ k`: nested dicts recurse with an extended key, a list of
scalars is joined with `", "`, any other list is stringified whole, and
scalars are stored unchanged (dict-update semantics on `flat`). -/
def flattenValue (pre k : String) (v : Value) (flat : Record) : Record :=
  match v with
  | .obj fields => flattenFields fields (pre ++ k ++ "_") flat
  | .arr items =>
    if items.all isScalar then
      dictUp flat (pre ++ k)
        (Value.str (String.intercalate ", " (items.map pyStr)))
    else
      dictUp flat (pre ++ k) (Value.str (pyStr (Value.arr items)))
  | other => dictUp flat (pre ++ k) other

/-- Fold `_flatten_dict` over the fields of one nesting level. -/
def flattenFields (fields : List (String × Value)) (pre : String)
    (flat : Record) : Record :=
  match fields with
  | [] => flat
  | (k, v) :: rest => flattenFields rest pre (flattenValue pre k v flat)

end

/-- `FormatConverter._flatten_data`: either the first list-of-dicts field
verbatim, or the single-row flattening of the whole mapping. -/
def flattenData (data : Record) : List Record :=
  match firstListOfDicts data with
  | some l => l
  | none => [flattenFields data "" []]

/-- The observable output of `FormatConverter._convert_to_csv`: either a
header row plus the cell lines written by `csv.DictWriter`, or the
two-column `Key,Value` fallback dump. -/
inductive CsvOut where
  | table (header : List String) (rows : List (List String))
  | kv (rows : List (String × String))

/-- One `csv.DictWriter` cell: the row's value for a header key rendered
by the writer's `str` coercion, or the empty cell for a key the row
lacks (`restval=None` is written as the empty string). -/
def csvCell (r : Record) (k : String) : String :=
  match r.lookup k with
  | some v => pyStr v
  | none => ""

/-- `csv.DictWriter`'s `extrasaction='raise'` test for one row: every
key of the row must be among the field names, else `_dict_to_list`
raises `ValueError`. -/
def rowKeysOk (header : List String) (r : Record) : Bool :=
  r.all (fun p => header.contains p.1)

/-- `FormatConverter._convert_to_csv` at the writer level: a nonempty
flattening becomes a `DictWriter` table whose field names are the first
row's keys — each row projected onto those field names, a missing key
filling its cell with the empty string, and a row with a key outside
the field names raising `ValueError` out of the conversion
(`extrasaction` defaults to `'raise'`); an empty flattening (only
possible when the selected list-of-dicts field was the empty list)
falls back to a stringified `Key,Value` dump of the top-level
mapping. -/
def convertToCsv (data : Record) : Except String CsvOut :=
  match flattenData data with
  | [] => .ok (.kv (data.map (fun p => (p.1, pyStr p.2))))
  | r0 :: rest =>
    let header := r0.map (fun p => p.1)
    if (r0 :: rest).all (fun r => rowKeysOk header r) then
      .ok (.table header ((r0 :: rest).map (fun r => header.map (csvCell r))))
    else
      .error "ValueError: dict contains fields not in fieldnames"

/-- Discriminator: did the conversion succeed with the tabular form? -/
def isTableOut : Except String CsvOut → Bool
  | .ok (.table _ _) => true
  | _ => false

/-- The lowercase names accepted by `FormatConverter.convert`. -/
def supportedFormats : List String := ["json", "csv", "txt", "yaml", "xml"]

/-- `FormatConverter.convert`: walk the requested formats in order; each
recognised name (case-insensitively) materializes an output path keyed
by its canonical lowercase name; every other name is skipped with only a
logged warning. -/
def convert (outputDir : String) (data : Record) (formats : List String)
    (baseFilename : String) : List (String × String) :=
  formats.foldl (fun results fmt =>
    if strLower fmt = "json" then
      dictUp results "json" (pjoin outputDir (baseFilename ++ ".json"))
    else if strLower fmt = "csv" then
      dictUp results "csv" (pjoin outputDir (baseFilename ++ ".csv"))
    else if strLower fmt = "txt" then
      dictUp results "txt" (pjoin outputDir (baseFilename ++ ".txt"))
    else if strLower fmt = "yaml" then
      dictUp results "yaml" (pjoin outputDir (baseFilename ++ ".yaml"))
    else if strLower fmt = "xml" then
      dictUp results "xml" (pjoin outputDir (baseFilename ++ ".xml"))
    else results) []

/-- `save_data` immediately followed by `load_data` at the same key. -/
def saveThenLoad (base : String) (st : StorageState) (now cat id : String)
    (m : Record) : Except String (Option Record) :=
  match saveData base st now cat id m with
  | .error e => .error e
  | .ok (_, st') => loadData base st' cat id

/-! ## Helper lemmas about the embedded operations -/

theorem lookup_map_update (m : List (String × α)) (k : String) (v : α) :
    (m.map (fun p => if p.1 = k then (k, v) else p)).lookup k =
      if m.any (fun p => p.1 = k) then some v else none := by
  induction m with
  | nil => simp
  | cons p rest ih =>
    obtain ⟨a, b⟩ := p
    by_cases hp : a = k
    · subst hp
      rw [List.map_cons,
        show (if ((a, b) : String × α).1 = a then (a, v) else (a, b)) = (a, v)
          from if_pos rfl]
      simp [List.lookup, ih]
    · rw [List.map_cons,
        show (if ((a, b) : String × α).1 = k then (k, v) else (a, b)) = (a, b)
          from if_neg hp]
      have hk : (k == a) = false := beq_eq_false_iff_ne.mpr (Ne.symm hp)
      simp only [List.lookup, hk, List.any_cons]
      simp only [decide_eq_false hp, Bool.false_or]
      exact ih

theorem lookup_append_absent (m : List (String × α)) (k : String) (v : α)
    (h : m.any (fun p => p.1 = k) = false) :
    (m ++ [(k, v)]).lookup k = some v := by
  induction m with
  | nil => simp [List.lookup]
  | cons p rest ih =>
    obtain ⟨a, b⟩ := p
    simp only [List.any_cons, Bool.or_eq_false_iff, decide_eq_false_iff_not] at h
    have hk : (k == a) = false := beq_eq_false_iff_ne.mpr (Ne.symm h.1)
    simp [List.lookup, hk, ih h.2]

/-- Updating a key then looking it up yields the new value. -/
theorem lookup_dictUp_self (m : List (String × α)) (k : String) (v : α) :
    (dictUp m k v).lookup k = some v := by
  unfold dictUp
  by_cases h : m.any (fun p => p.1 = k)
  · rw [if_pos h, lookup_map_update, if_pos h]
  · rw [if_neg h, lookup_append_absent _ _ _ (Bool.eq_false_iff.mpr h)]

theorem lookup_map_update_ne (k0 : String) (v : α) (k : String)
    (hne : k ≠ k0) :
    ∀ m : List (String × α),
      (m.map (fun p => if p.1 = k0 then (k0, v) else p)).lookup k =
        m.lookup k := by
  intro m
  induction m with
  | nil => rfl
  | cons p rest ih =>
    obtain ⟨a, b⟩ := p
    by_cases hp : a = k0
    · subst hp
      rw [List.map_cons,
        show (if ((a, b) : String × α).1 = a then (a, v) else (a, b)) = (a, v)
          from if_pos rfl]
      have hk : (k == a) = false := beq_eq_false_iff_ne.mpr hne
      simp only [List.lookup, hk]
      exact ih
    · rw [List.map_cons,
        show (if ((a, b) : String × α).1 = k0 then (k0, v) else (a, b)) = (a, b)
          from if_neg hp]
      cases hk : (k == a) with
      | true => simp only [List.lookup, hk]
      | false => simp only [List.lookup, hk]; exact ih

theorem lookup_append_single_ne (k0 : String) (v : α) (k : String)
    (hne : k ≠ k0) :
    ∀ m : List (String × α), (m ++ [(k0, v)]).lookup k = m.lookup k := by
  intro m
  induction m with
  | nil =>
    have hk : (k == k0) = false := beq_eq_false_iff_ne.mpr hne
    simp [List.lookup, hk]
  | cons p rest ih =>
    obtain ⟨a, b⟩ := p
    cases hk : (k == a) with
    | true => simp only [List.cons_append, List.lookup, hk]
    | false => simp only [List.cons_append, List.lookup, hk]; exact ih

/-- A dict update at one key leaves every other key's lookup unchanged. -/
theorem lookup_dictUp_of_ne (m : List (String × α)) (k0 : String) (v : α)
    (k : String) (hne : k ≠ k0) :
    (dictUp m k0 v).lookup k = m.lookup k := by
  unfold dictUp
  by_cases h : m.any (fun p => p.1 = k0)
  · rw [if_pos h]; exact lookup_map_update_ne k0 v k hne m
  · rw [if_neg h]; exact lookup_append_single_ne k0 v k hne m

/-- A pair under a different key survives a dict update. -/
theorem mem_dictUp_of_ne (m : List (String × α)) (k0 : String) (v0 : α)
    (k : String) (v : α) (hm : (k, v) ∈ m) (hne : k ≠ k0) :
    (k, v) ∈ dictUp m k0 v0 := by
  unfold dictUp
  by_cases h : m.any (fun p => p.1 = k0)
  · rw [if_pos h]
    exact List.mem_map.mpr ⟨(k, v), hm, by simp [hne]⟩
  · rw [if_neg h]
    exact List.mem_append_left _ hm

/-- The updated pair itself is in the updated dict. -/
theorem self_mem_dictUp (m : List (String × α)) (k : String) (v : α) :
    (k, v) ∈ dictUp m k v := by
  unfold dictUp
  by_cases h : m.any (fun p => p.1 = k)
  · rw [if_pos h]
    obtain ⟨p, hp, hpk⟩ := List.any_eq_true.mp h
    exact List.mem_map.mpr ⟨p, hp, by simp at hpk; simp [hpk]⟩
  · rw [if_neg h]
    exact List.mem_append_right _ (List.mem_singleton.mpr rfl)

/-- `d.get k default` after `d[k] = v` returns `v`. -/
theorem dictGetD_dictUp_self (m : Record) (k : String) (v d : Value) :
    dictGetD (dictUp m k v) k d = v := by
  unfold dictGetD
  rw [lookup_dictUp_self]

/-- Looking up a key that a filter just removed yields nothing. -/
theorem lookup_filter_ne (l : List (String × α)) (k : String) :
    (l.filter (fun p => p.1 ≠ k)).lookup k = none := by
  induction l with
  | nil => simp
  | cons p rest ih =>
    obtain ⟨a, b⟩ := p
    by_cases hp : a = k
    · have hc : (decide (((a, b) : String × α).1 ≠ k)) = false := by simp [hp]
      rw [List.filter_cons, hc, if_neg Bool.false_ne_true]
      exact ih
    · have hc : (decide (((a, b) : String × α).1 ≠ k)) = true := by simp [hp]
      rw [List.filter_cons, hc, if_pos rfl]
      have hk : (k == a) = false := beq_eq_false_iff_ne.mpr (Ne.symm hp)
      simp only [List.lookup, hk]
      exact ih

/-- An absent key means no element carries it. -/
theorem any_eq_false_of_lookup_none (l : List (String × α)) (k : String)
    (h : l.lookup k = none) : l.any (fun p => p.1 = k) = false := by
  induction l with
  | nil => simp
  | cons p rest ih =>
    obtain ⟨a, b⟩ := p
    by_cases he : k = a
    · subst he; simp [List.lookup] at h
    · have hk : (k == a) = false := beq_eq_false_iff_ne.mpr he
      simp only [List.lookup, hk] at h
      simp [List.any_cons, show ¬ a = k from fun hp => he hp.symm, ih h]

/-- A key absent from a dict stays absent after appending a different
key. -/
theorem lookup_append_single_none (l : List (String × α)) (k k0 : String)
    (v0 : α) (h : l.lookup k = none) (hne : k ≠ k0) :
    (l ++ [(k0, v0)]).lookup k = none := by
  induction l with
  | nil =>
    have hk : (k == k0) = false := beq_eq_false_iff_ne.mpr hne
    simp [List.lookup, hk]
  | cons p rest ih =>
    obtain ⟨a, b⟩ := p
    cases hk : (k == a) with
    | true => simp [List.lookup, hk] at h
    | false =>
      simp only [List.lookup, hk] at h
      simp only [List.cons_append, List.lookup, hk]
      exact ih h

/-- A no-match token strip pass is the identity. -/
theorem stripTokAux_of_not_hasTok (tok : List Char) :
    ∀ (fuel : Nat) (cs : List Char), hasTok tok cs = false →
      stripTokAux tok fuel cs = cs := by
  intro fuel
  induction fuel with
  | zero => intro cs _; rfl
  | succ n ih =>
    intro cs h
    cases cs with
    | nil => rfl
    | cons c rest =>
      simp only [hasTok, Bool.or_eq_false_iff] at h
      simp [stripTokAux, h.1, ih rest h.2]

/-- `filterMap` collapses to `map` when the partial function succeeds
everywhere. -/
theorem filterMap_eq_map_of_forall {α β : Type} (l : List α)
    (f : α → Option β) (g : α → β) (h : ∀ x ∈ l, f x = some (g x)) :
    l.filterMap f = l.map g := by
  induction l with
  | nil => rfl
  | cons x rest ih =>
    rw [List.filterMap_cons, h x (List.mem_cons_self x rest), List.map_cons,
      ih (fun y hy => h y (List.mem_cons_of_mem x hy))]

/-- A category is one of the enumerated scraper types. -/
def ValidCat (cat : String) : Prop :=
  cat = "github" ∨ cat = "website" ∨ cat = "youtube"

theorem getDir_setDir_self (st : StorageState) (cat : String)
    (l : List (String × Record)) (hc : ValidCat cat) :
    getDir (setDir st cat l) cat = l := by
  rcases hc with h | h | h <;> subst h <;> simp [getDir, setDir]

/-- For a valid category, `save_data` always succeeds, returning the data
path and the state where the category directory maps the identifier to
the stamped record. -/
theorem saveData_ok (base : String) (st : StorageState) (now cat id : String)
    (m : Record) (hc : ValidCat cat) :
    saveData base st now cat id m =
      .ok (pjoin (pjoin (pjoin base cat) id) "data.json",
        setDir st cat
          (dictUp (getDir st cat) id (dictUp m "saved_at" (Value.str now)))) := by
  rcases hc with h | h | h <;> subst h <;> simp [saveData, getStoragePath, getDir]

/-- An update at a fresh key is an append. -/
theorem dictUp_append_of_absent (m : List (String × α)) (k : String) (v : α)
    (h : m.lookup k = none) : dictUp m k v = m ++ [(k, v)] := by
  unfold dictUp
  rw [if_neg]
  rw [any_eq_false_of_lookup_none m k h]
  exact Bool.false_ne_true

/-- Saving a batch of fresh, pairwise-distinct identifiers appends the
stamped records in order to the category directory. -/
theorem getDir_saveAll (base now cat : String) (hc : ValidCat cat) :
    ∀ (pairs : List (String × Record)) (st : StorageState),
      (pairs.map Prod.fst).Nodup →
      (∀ p ∈ pairs, (getDir st cat).lookup p.1 = none) →
      getDir (saveAll base now cat pairs st) cat =
        getDir st cat ++
          pairs.map (fun p => (p.1, dictUp p.2 "saved_at" (Value.str now))) := by
  intro pairs
  induction pairs with
  | nil => intro st _ _; simp [saveAll]
  | cons p rest ih =>
    intro st hnd habs
    obtain ⟨id, r⟩ := p
    simp only [List.map_cons, List.nodup_cons, List.mem_map] at hnd
    have habs0 : (getDir st cat).lookup id = none :=
      habs (id, r) (List.mem_cons_self _ _)
    have hstep : saveAll base now cat ((id, r) :: rest) st =
        saveAll base now cat rest
          (setDir st cat (dictUp (getDir st cat) id
            (dictUp r "saved_at" (Value.str now)))) := by
      unfold saveAll
      rw [List.foldl_cons, saveData_ok base st now cat id r hc]
    rw [hstep]
    set stamped := dictUp r "saved_at" (Value.str now) with hstamped
    set st' := setDir st cat (dictUp (getDir st cat) id stamped) with hst'
    have hdir' : getDir st' cat = getDir st cat ++ [(id, stamped)] := by
      rw [hst', getDir_setDir_self _ _ _ hc, dictUp_append_of_absent _ _ _ habs0]
    have habs' : ∀ q ∈ rest, (getDir st' cat).lookup q.1 = none := by
      intro q hq
      rw [hdir']
      refine lookup_append_single_none _ _ _ _ (habs q (List.mem_cons_of_mem _ hq)) ?_
      intro hqid
      exact hnd.1 ⟨q, hq, hqid⟩
    rw [ih st' hnd.2 habs', hdir', List.map_cons, List.append_assoc,
      List.singleton_append]

/-! ## Claims -/

/-- Claim C4, counterexample.  The claim asserts that `validatePath`
returns `false` for every path containing a `..` traversal segment and
`true` for `"/home/user/data"`.  The code disagrees on both counts:
`"a/../b"` contains a traversal segment yet validates (normalization
removes it before the check), and `"/home/user/data"` is rejected because
absolute paths are compared against an allow-list (`/tmp`, `/var/tmp`,
the current working directory — here `"/app"`), not a deny-list. -/
theorem validatePath_claim_refuted :
    validateFilePath "/app" "/home/user/data" = false ∧
    validateFilePath "/app" "a/../b" = true := by
  exact ⟨rfl, rfl⟩

/-- Claim C4, amended: `validatePath` rejects exactly the paths whose
normalized form still contains `..`; among the rest it accepts every
relative path, and accepts an absolute path iff it starts with `/tmp`,
`/var/tmp`, or the current working directory. -/
theorem validatePath_characterization (cwd p : String) :
    validateFilePath cwd p = true ↔
      (containsSub (normpath p) ".." = false ∧
        (isAbs (normpath p) = true →
          (startsWithS (normpath p) "/tmp" = true ∨
            startsWithS (normpath p) "/var/tmp" = true ∨
            startsWithS (normpath p) cwd = true))) := by
  unfold validateFilePath
  by_cases h1 : containsSub (normpath p) ".."
  · simp [h1]
  · by_cases h2 : isAbs (normpath p)
    · by_cases h3 : startsWithS (normpath p) "/tmp" ∨
          startsWithS (normpath p) "/var/tmp" ∨ startsWithS (normpath p) cwd
      · simp [h1, h2, h3]
      · simp [h1, h2, h3]
    · simp [h1, h2]

theorem basenameChars_all_ne_slash (cs : List Char) :
    ∀ acc : List Char, (∀ x ∈ acc, x ≠ '/') →
      ∀ x ∈ cs.foldl (fun acc c => if c = '/' then [] else acc ++ [c]) acc,
        x ≠ '/' := by
  induction cs with
  | nil => intro acc h; simpa using h
  | cons c rest ih =>
    intro acc h
    simp only [List.foldl_cons]
    by_cases hc : c = '/'
    · rw [if_pos hc]; exact ih [] (by simp)
    · rw [if_neg hc]
      refine ih (acc ++ [c]) ?_
      intro x hx
      rcases List.mem_append.mp hx with hx | hx
      · exact h x hx
      · rw [List.mem_singleton.mp hx]; exact hc

theorem foldl_basename_of_no_slash (cs : List Char) :
    ∀ acc : List Char, (∀ x ∈ cs, x ≠ '/') →
      cs.foldl (fun acc c => if c = '/' then [] else acc ++ [c]) acc =
        acc ++ cs := by
  induction cs with
  | nil => intro acc _; simp
  | cons c rest ih =>
    intro acc h
    have hc : c ≠ '/' := h c (List.mem_cons_self _ _)
    simp only [List.foldl_cons, if_neg hc]
    rw [ih (acc ++ [c]) (fun x hx => h x (List.mem_cons_of_mem _ hx))]
    simp

theorem basenameChars_idem (cs : List Char) :
    basenameChars (basenameChars cs) = basenameChars cs := by
  unfold basenameChars
  rw [foldl_basename_of_no_slash _ []
    (basenameChars_all_ne_slash cs [] (by simp))]
  simp

/-- Claim C9, counterexample.  The claim asserts that every character
outside `[A-Za-z0-9_.-]` is replaced with `_`.  The code's
`re.sub(r'[^\w\.\-]', '_', ·)` uses Python's Unicode-aware `\w`, which
keeps non-ASCII word characters: `secure_filename("café")` is `"café"`,
whose final character is outside the claimed ASCII class. -/
theorem secureFilename_ascii_refuted :
    secureFilename "café" = "café" ∧
    ((secureFilename "café").data.all
      (fun c => c.isAlphanum ∨ c = '_' ∨ c = '.' ∨ c = '-')) = false := by
  exact ⟨rfl, rfl⟩

/-- Claim C9, amended: `secureFilename` keeps only the final path
segment of its input, replaces every character that is not a Python
word character (Unicode-aware `\w` — so a non-ASCII word character such
as `é` is kept, not replaced), dot, or hyphen with `_`, never returns
the empty string (an otherwise-empty result collapses to the fixed
placeholder `"unnamed_file"`), and in particular maps `"/etc/passwd"`
to `"passwd"` and `"café"` to `"café"`. -/
theorem secureFilename_spec :
    secureFilename "/etc/passwd" = "passwd" ∧
    secureFilename "café" = "café" ∧
    (∀ s : String,
      secureFilename s = secureFilename (String.mk (basenameChars s.data))) ∧
    (∀ s : String, (secureFilename s).data.all filenameOk = true) ∧
    (∀ s : String, secureFilename s ≠ "") ∧
    (∀ s : String, secureFilename s = "unnamed_file" ∨
      (secureFilename s).data =
        (basenameChars s.data).map (fun c => if filenameOk c then c else '_')) := by
  refine ⟨rfl, rfl, ?_, ?_, ?_, ?_⟩
  · intro s
    unfold secureFilename
    rw [show (String.mk (basenameChars s.data)).data = basenameChars s.data
      from rfl, basenameChars_idem]
  · intro s
    unfold secureFilename
    by_cases h : String.mk ((basenameChars s.data).map
        (fun c => if filenameOk c then c else '_')) = ""
    · rw [if_pos h]; decide
    · rw [if_neg h]
      show ((basenameChars s.data).map
        (fun c => if filenameOk c then c else '_')).all filenameOk = true
      rw [List.all_map]
      apply List.all_eq_true.mpr
      intro c _
      by_cases hc : filenameOk c
      · simpa [hc] using hc
      · simp only [Function.comp_apply, if_neg hc]
        decide
  · intro s
    unfold secureFilename
    by_cases h : String.mk ((basenameChars s.data).map
        (fun c => if filenameOk c then c else '_')) = ""
    · rw [if_pos h]; decide
    · rw [if_neg h]; exact h
  · intro s
    unfold secureFilename
    by_cases h : String.mk ((basenameChars s.data).map
        (fun c => if filenameOk c then c else '_')) = ""
    · rw [if_pos h]; exact Or.inl rfl
    · rw [if_neg h]; exact Or.inr rfl

/-- An unsupported key never enters `convert`'s fold: every key the fold
adds is one of the five canonical lowercase names. -/
theorem convert_foldl_lookup_unsupported (outputDir baseFilename : String) :
    ∀ (fmts : List String) (acc : List (String × String)) (k : String),
      k ∉ supportedFormats → acc.lookup k = none →
      (fmts.foldl (fun results fmt =>
        if strLower fmt = "json" then
          dictUp results "json" (pjoin outputDir (baseFilename ++ ".json"))
        else if strLower fmt = "csv" then
          dictUp results "csv" (pjoin outputDir (baseFilename ++ ".csv"))
        else if strLower fmt = "txt" then
          dictUp results "txt" (pjoin outputDir (baseFilename ++ ".txt"))
        else if strLower fmt = "yaml" then
          dictUp results "yaml" (pjoin outputDir (baseFilename ++ ".yaml"))
        else if strLower fmt = "xml" then
          dictUp results "xml" (pjoin outputDir (baseFilename ++ ".xml"))
        else results) acc).lookup k = none := by
  intro fmts
  induction fmts with
  | nil => intro acc k _ hacc; exact hacc
  | cons f rest ih =>
    intro acc k hk hacc
    have hne : ∀ c, c ∈ supportedFormats → k ≠ c := fun c hc he => hk (he ▸ hc)
    simp only [List.foldl_cons]
    by_cases h1 : strLower f = "json"
    · rw [if_pos h1]
      exact ih _ k hk
        ((lookup_dictUp_of_ne _ _ _ _ (hne "json" (by decide))).trans hacc)
    rw [if_neg h1]
    by_cases h2 : strLower f = "csv"
    · rw [if_pos h2]
      exact ih _ k hk
        ((lookup_dictUp_of_ne _ _ _ _ (hne "csv" (by decide))).trans hacc)
    rw [if_neg h2]
    by_cases h3 : strLower f = "txt"
    · rw [if_pos h3]
      exact ih _ k hk
        ((lookup_dictUp_of_ne _ _ _ _ (hne "txt" (by decide))).trans hacc)
    rw [if_neg h3]
    by_cases h4 : strLower f = "yaml"
    · rw [if_pos h4]
      exact ih _ k hk
        ((lookup_dictUp_of_ne _ _ _ _ (hne "yaml" (by decide))).trans hacc)
    rw [if_neg h4]
    by_cases h5 : strLower f = "xml"
    · rw [if_pos h5]
      exact ih _ k hk
        ((lookup_dictUp_of_ne _ _ _ _ (hne "xml" (by decide))).trans hacc)
    rw [if_neg h5]
    exact ih acc k hk hacc

/-- Claim C6 (confirmed): in any request — mixed or not — every
requested format name outside the supported set is skipped without
raising and leaves no key in the returned mapping (neither the name
itself nor its lowercase form), so callers detect non-materialized
formats by absence from the result; a request consisting only of the
unsupported name `"exe"` yields the empty result mapping. -/
theorem convert_skips_unsupported (outputDir : String) (data : Record)
    (formats : List String) (baseFilename : String) (f : String)
    (hf : strLower f ∉ supportedFormats) :
    (convert outputDir data formats baseFilename).lookup (strLower f) = none ∧
    (convert outputDir data formats baseFilename).lookup f = none ∧
    convert outputDir data ["exe"] baseFilename = [] := by
  have hfix : ∀ x ∈ supportedFormats, strLower x = x := by decide
  have hf' : f ∉ supportedFormats := fun hmem => hf (by rw [hfix f hmem]; exact hmem)
  refine ⟨?_, ?_, rfl⟩
  · exact convert_foldl_lookup_unsupported outputDir baseFilename formats []
      (strLower f) hf rfl
  · exact convert_foldl_lookup_unsupported outputDir baseFilename formats []
      f hf' rfl

/-- Claim C6, witness: in the mixed request `["JSON", "exe"]` the
unsupported name `"exe"` is absent from the result, and
`convert(value, ["exe"], "x")` returns the empty result mapping. -/
theorem convert_skips_unsupported_witness :
    (convert "/out" [] ["JSON", "exe"] "x").lookup "exe" = none ∧
    convert "/out" [] ["exe"] "x" = [] := by
  have h := convert_skips_unsupported "/out" [] ["JSON", "exe"] "x" "exe"
    (by decide)
  exact ⟨h.2.1, h.2.2⟩

theorem getStoragePath_ok (base cat id : String) (hc : ValidCat cat) :
    getStoragePath base cat id = .ok (pjoin (pjoin base cat) id) := by
  rcases hc with h | h | h <;> subst h <;> rfl

/-- Claim C5 (confirmed): for a valid category, `delete` on an absent key
returns `false` without throwing, and — absent genuine I/O failure — two
consecutive deletes on a present key return `true` then `false`: delete
maps present to absent, absent to absent, and reports the no-op
transition through its `false` return. -/
theorem delete_idempotent (base : String) (st : StorageState)
    (ioFail : String → String → Bool) (cat id : String)
    (hc : ValidCat cat) (hio : ioFail cat id = false) :
    ((getDir st cat).lookup id = none →
      deleteData base st ioFail cat id = .ok (false, st)) ∧
    (∀ r, (getDir st cat).lookup id = some r →
      deleteData base st ioFail cat id =
        .ok (true, setDir st cat ((getDir st cat).filter (fun p => p.1 ≠ id))) ∧
      deleteData base
          (setDir st cat ((getDir st cat).filter (fun p => p.1 ≠ id)))
          ioFail cat id =
        .ok (false,
          setDir st cat ((getDir st cat).filter (fun p => p.1 ≠ id)))) := by
  constructor
  · intro habs
    unfold deleteData
    rw [getStoragePath_ok base cat id hc]
    simp only [habs]
  · intro r hr
    constructor
    · unfold deleteData
      rw [getStoragePath_ok base cat id hc]
      simp only [hr, hio]
      rfl
    · unfold deleteData
      rw [getStoragePath_ok base cat id hc]
      rw [getDir_setDir_self st cat _ hc, lookup_filter_ne]

/-- Claim C5, witness: deleting the single saved github record succeeds
with `true`; the immediate second delete returns `false` and leaves the
store empty. -/
theorem delete_idempotent_witness :
    deleteData "/data" ⟨[("r", [])], [], []⟩ (fun _ _ => false) "github" "r" =
      .ok (true, (⟨[], [], []⟩ : StorageState)) ∧
    deleteData "/data" ⟨[], [], []⟩ (fun _ _ => false) "github" "r" =
      .ok (false, (⟨[], [], []⟩ : StorageState)) := by
  have h := (delete_idempotent "/data" ⟨[("r", [])], [], []⟩ (fun _ _ => false)
    "github" "r" (Or.inl rfl) rfl).2 [] rfl
  exact ⟨h.1, h.2⟩

/-- Claim C10 (confirmed): for each enumerated category, `delete` never
raises: the missing-key case and an I/O failure during removal are both
reported as a plain `false` return, and `true` is returned exactly when
the record existed, removal did not fail, and the record's storage
location is gone from the resulting state. -/
theorem delete_never_raises (base : String) (st : StorageState)
    (ioFail : String → String → Bool) (cat id : String) (hc : ValidCat cat) :
    (deleteData base st ioFail cat id).isOk = true ∧
    (∀ b st', deleteData base st ioFail cat id = .ok (b, st') →
      ((b = true) ↔
        (((getDir st cat).lookup id).isSome = true ∧ ioFail cat id = false)) ∧
      (b = true → (getDir st' cat).lookup id = none)) := by
  have hpath := getStoragePath_ok base cat id hc
  cases hlook : (getDir st cat).lookup id with
  | none =>
    have hdel : deleteData base st ioFail cat id = .ok (false, st) := by
      unfold deleteData
      rw [hpath]
      simp only [hlook]
    refine ⟨by rw [hdel]; rfl, ?_⟩
    intro b st' h
    rw [hdel] at h
    injection h with h'
    injection h' with hb hst
    subst hb
    subst hst
    constructor
    · simp [hlook]
    · intro hfalse
      cases hfalse
  | some r =>
    cases hio : ioFail cat id with
    | true =>
      have hdel : deleteData base st ioFail cat id = .ok (false, st) := by
        unfold deleteData
        rw [hpath]
        simp only [hlook, hio]
        rfl
      refine ⟨by rw [hdel]; rfl, ?_⟩
      intro b st' h
      rw [hdel] at h
      injection h with h'
      injection h' with hb hst
      subst hb
      subst hst
      constructor
      · simp [hio]
      · intro hfalse
        cases hfalse
    | false =>
      have hdel : deleteData base st ioFail cat id =
          .ok (true, setDir st cat
            ((getDir st cat).filter (fun p => p.1 ≠ id))) := by
        unfold deleteData
        rw [hpath]
        simp only [hlook, hio]
        rfl
      refine ⟨by rw [hdel]; rfl, ?_⟩
      intro b st' h
      rw [hdel] at h
      injection h with h'
      injection h' with hb hst
      subst hb
      subst hst
      constructor
      · simp [hlook, hio]
      · intro _
        rw [getDir_setDir_self st cat _ hc, lookup_filter_ne]

/-- Claim C10, witness: a failing removal of a present youtube record is
reported as a non-raising result. -/
theorem delete_never_raises_witness :
    (deleteData "/d" ⟨[], [], [("v", [])]⟩ (fun _ _ => true)
      "youtube" "v").isOk = true :=
  (delete_never_raises "/d" ⟨[], [], [("v", [])]⟩ (fun _ _ => true)
    "youtube" "v" (Or.inr (Or.inr rfl))).1

/-- Claim C2, counterexample.  The claim asserts that `save` fails with
`UnsafeIdentifier` — persisting nothing — for an identifier that fails
Safety Layer path validation.  The code never consults the Safety Layer:
with the traversal identifier `"../../etc/passwd"` (which
`validate_file_path` rejects), the save succeeds and the record is
persisted at that key, as the immediate load shows. -/
theorem save_unsafe_identifier_refuted :
    validateFilePath "/app" "../../etc/passwd" = false ∧
    saveThenLoad "/data" emptyStore "2025-05-05T10:00:00" "github"
        "../../etc/passwd" [("k", Value.num 1)] =
      .ok (some [("k", Value.num 1),
        ("saved_at", Value.str "2025-05-05T10:00:00")]) := by
  exact ⟨rfl, rfl⟩

/-- Claim C2, amended: `save` applies no Safety Layer validation to the
identifier.  For every valid category and every identifier — in
particular one failing `validate_file_path` — the save succeeds, joins
the identifier into the storage path, and persists the record under that
key. -/
theorem save_no_identifier_validation (base : String) (st : StorageState)
    (now cat id cwd : String) (m : Record) (hc : ValidCat cat)
    (hfails : validateFilePath cwd id = false) :
    saveData base st now cat id m =
      .ok (pjoin (pjoin (pjoin base cat) id) "data.json",
        setDir st cat (dictUp (getDir st cat) id
          (dictUp m "saved_at" (Value.str now)))) ∧
    (getDir (setDir st cat (dictUp (getDir st cat) id
        (dictUp m "saved_at" (Value.str now)))) cat).lookup id =
      some (dictUp m "saved_at" (Value.str now)) := by
  refine ⟨saveData_ok base st now cat id m hc, ?_⟩
  rw [getDir_setDir_self st cat _ hc, lookup_dictUp_self]

/-- Claim C2, witness: the amended behaviour at the concrete unsafe
identifier `"../../etc/passwd"`. -/
theorem save_no_identifier_validation_witness :
    saveData "/data" emptyStore "t0" "github" "../../etc/passwd" [] =
      .ok ("/data/github/../../etc/passwd/data.json",
        (⟨[("../../etc/passwd", [("saved_at", Value.str "t0")])], [], []⟩ :
          StorageState)) := by
  have h := save_no_identifier_validation "/data" emptyStore "t0" "github"
    "../../etc/passwd" "/app" [] (Or.inl rfl) rfl
  exact h.1

/-- Claim C1, counterexample.  The claim asserts that `load` after
`save(category, id, m)` preserves every original key/value pair of `m`.
When `m` itself contains a `saved_at` key, the save overwrites that
value with the current time, so the original pair `("saved_at", "old")`
is not preserved. -/
theorem roundtrip_refuted :
    saveThenLoad "/data" emptyStore "2025-05-05T10:00:00" "github" "r"
        [("saved_at", Value.str "old")] =
      .ok (some [("saved_at", Value.str "2025-05-05T10:00:00")]) ∧
    ¬ (("saved_at", Value.str "old") ∈
        ([("saved_at", Value.str "2025-05-05T10:00:00")] : Record)) := by
  refine ⟨rfl, ?_⟩
  intro h
  simp only [List.mem_singleton, Prod.mk.injEq] at h
  obtain ⟨-, hv⟩ := h
  injection hv with hs
  exact absurd hs (by decide)

/-- Claim C1, amended: for every valid category, `load` after
`save(category, id, m)` returns `m` with `saved_at` stamped to the save
time: every original pair whose key is not `saved_at` is preserved, the
returned mapping carries `("saved_at", now)`, and a pre-existing
`saved_at` value is overwritten rather than preserved. -/
theorem roundtrip_amended (base : String) (st : StorageState)
    (now cat id : String) (m : Record) (hc : ValidCat cat) :
    saveThenLoad base st now cat id m =
      .ok (some (dictUp m "saved_at" (Value.str now))) ∧
    (∀ k v, (k, v) ∈ m → k ≠ "saved_at" →
      (k, v) ∈ dictUp m "saved_at" (Value.str now)) ∧
    ("saved_at", Value.str now) ∈ dictUp m "saved_at" (Value.str now) := by
  refine ⟨?_, ?_, self_mem_dictUp m _ _⟩
  · unfold saveThenLoad
    rw [saveData_ok base st now cat id m hc]
    unfold loadData
    rw [getStoragePath_ok base cat id hc]
    dsimp only
    rw [getDir_setDir_self st cat _ hc, lookup_dictUp_self]
  · intro k v hm hne
    exact mem_dictUp_of_ne m "saved_at" (Value.str now) k v hm hne

/-- Claim C1, witness: the amended round-trip at a concrete record. -/
theorem roundtrip_amended_witness :
    saveThenLoad "/d" emptyStore "t0" "website" "w" [("k", Value.num 1)] =
      .ok (some [("k", Value.num 1), ("saved_at", Value.str "t0")]) ∧
    ("saved_at", Value.str "t0") ∈
      ([("k", Value.num 1), ("saved_at", Value.str "t0")] : Record) := by
  have h := roundtrip_amended "/d" emptyStore "t0" "website" "w"
    [("k", Value.num 1)] (Or.inr (Or.inl rfl))
  exact ⟨h.1, h.2.2⟩

/-- Claim C3, counterexample.  The claim asserts that the first field
whose value is a sequence of mappings is emitted exactly as the rows.
Twice the code does otherwise: for `{"meta": "x", "items": []}` the
`items` field is selected (every element of the empty sequence is
vacuously a mapping) yet the empty flattening triggers the `Key,Value`
fallback dump; and for `{"items": [{"a":1},{"b":2}]}` the second row's
key `b` lies outside the field names taken from the first row, so
`csv.DictWriter` (with its default `extrasaction='raise'`) raises
`ValueError` instead of emitting the rows. -/
theorem csv_tiebreak_refuted :
    firstListOfDicts [("meta", Value.str "x"), ("items", Value.arr [])] =
      some [] ∧
    isTableOut (convertToCsv [("meta", Value.str "x"),
      ("items", Value.arr [])]) = false ∧
    convertToCsv [("meta", Value.str "x"), ("items", Value.arr [])] =
      .ok (.kv [("meta", "x"), ("items", "[]")]) ∧
    convertToCsv [("items", Value.arr [Value.obj [("a", Value.num 1)],
        Value.obj [("b", Value.num 2)]])] =
      .error "ValueError: dict contains fields not in fieldnames" := by
  exact ⟨rfl, rfl, rfl, rfl⟩

/-- Claim C3, amended: when the first list-of-mappings field holds a
nonempty sequence each of whose elements' keys lie within the first
element's keys, tabular conversion emits exactly that sequence as the
rows — the header taken from the first element's keys, each row giving
its values in header order with an empty cell for a key it lacks —
discarding every other top-level field; an element with a key outside
the header makes the writer raise `ValueError`, and an empty selected
sequence instead falls back to the `Key,Value` dump. -/
theorem csv_tiebreak_amended (data : Record) (r0 : Record)
    (rest : List Record)
    (h : firstListOfDicts data = some (r0 :: rest))
    (hkeys : (r0 :: rest).all
      (fun r => rowKeysOk (r0.map (fun p => p.1)) r) = true) :
    convertToCsv data =
      .ok (.table (r0.map (fun p => p.1))
        ((r0 :: rest).map (fun r => (r0.map (fun p => p.1)).map (csvCell r)))) := by
  unfold convertToCsv flattenData
  rw [h]
  dsimp only
  rw [if_pos hkeys]

/-- Claim C3, witness: the spec's concrete example
`{"meta": "x", "items": [{"a":1},{"a":2}]}` yields header `a` and
exactly the two rows `1` and `2`. -/
theorem csv_tiebreak_amended_witness :
    convertToCsv [("meta", Value.str "x"),
        ("items", Value.arr [Value.obj [("a", Value.num 1)],
          Value.obj [("a", Value.num 2)]])] =
      .ok (.table ["a"] [["1"], ["2"]]) :=
  csv_tiebreak_amended
    [("meta", Value.str "x"),
      ("items", Value.arr [Value.obj [("a", Value.num 1)],
        Value.obj [("a", Value.num 2)]])]
    [("a", Value.num 1)] [[("a", Value.num 2)]] rfl rfl

/-- Claim C8, counterexample.  The claim asserts that no `javascript:`
or `data:` scheme token remains anywhere in the sanitized string.  The
removal is a single left-to-right pass, so deleting the embedded
occurrence in `"jjavascript:avascript:"` concatenates the surrounding
text into a fresh `javascript:` token that survives in the output. -/
theorem sanitize_scheme_refuted :
    sanitizeInput "jjavascript:avascript:" = "javascript:" ∧
    containsTokCI (sanitizeInput "jjavascript:avascript:") jsTok = true := by
  exact ⟨rfl, rfl⟩

/-- Claim C8, amended: `sanitizeInput` HTML-escapes its input and strips
leftmost non-overlapping `javascript:` and `data:` occurrences
case-insensitively in one pass; whenever the escaped text contains no
such scheme token, the result is exactly the escaped text and no scheme
token appears in it — but a token re-formed by the text surrounding a
removed occurrence can remain. -/
theorem sanitize_singlepass (s : String)
    (hjs : hasTok jsTok (htmlEscape s).data = false)
    (hdata : hasTok dataTok (htmlEscape s).data = false) :
    sanitizeInput s = htmlEscape s ∧
    containsTokCI (sanitizeInput s) jsTok = false ∧
    containsTokCI (sanitizeInput s) dataTok = false := by
  have hmain : sanitizeInput s = htmlEscape s := by
    unfold sanitizeInput
    by_cases h0 : s = ""
    · rw [if_pos h0, h0]
      rfl
    · rw [if_neg h0]
      unfold stripTok
      rw [stripTokAux_of_not_hasTok jsTok _ _ hjs,
        stripTokAux_of_not_hasTok dataTok _ _ hdata]
  refine ⟨hmain, ?_, ?_⟩ <;> unfold containsTokCI <;> rw [hmain] <;> assumption

/-- Claim C8, witness: on scheme-free input the sanitizer is pure HTML
escaping and leaves no scheme token. -/
theorem sanitize_singlepass_witness :
    sanitizeInput "hello <b> & more" = htmlEscape "hello <b> & more" ∧
    containsTokCI (sanitizeInput "hello <b> & more") jsTok = false := by
  have h := sanitize_singlepass "hello <b> & more" (by decide) (by decide)
  exact ⟨h.1, h.2.1⟩

/-- Claim C7, counterexample.  The claim asserts that after saving N
records under N distinct identifiers, `list` returns exactly N entries.
Saving two github records — one whose present `repository` field is a
plain string — yields a listing of one entry: the nested `.get` on the
non-mapping `repository` raises inside the per-entry `try`, and the
entry is silently skipped. -/
theorem listing_completeness_refuted :
    ((listSavedData "/d"
        (saveAll "/d" "t0" "github"
          [("r1", [("repository", Value.str "x")]), ("r2", [])] emptyStore)
        "github").toOption.map (fun entries => entries.length)) =
      some 1 := by
  rfl

/-- Claim C7, amended: after saving N records under N pairwise-distinct
identifiers within one valid category — each of whose summary projection
succeeds (in particular, absent source fields merely default to the
documented `"unknown"`/zero placeholders) — `list(category)` returns
exactly N entries, one per identifier, each stamped with the save time
and carrying that category's summary projection of its record. -/
theorem listing_completeness (base now cat : String)
    (pairs : List (String × Record)) (hc : ValidCat cat)
    (hnd : (pairs.map Prod.fst).Nodup)
    (hsum : ∀ p ∈ pairs, ∃ s,
      generateSummary cat (dictUp p.2 "saved_at" (Value.str now)) = .ok s) :
    ∃ entries,
      listSavedData base (saveAll base now cat pairs emptyStore) cat =
        .ok entries ∧
      entries.length = pairs.length ∧
      (∀ p ∈ pairs, ∃ e ∈ entries, e.identifier = p.1 ∧
        e.saved_at = Value.str now ∧
        generateSummary cat (dictUp p.2 "saved_at" (Value.str now)) =
          .ok e.summary) := by
  have h0 : getDir emptyStore cat = [] := by
    rcases hc with h | h | h <;> subst h <;> rfl
  have hdir : getDir (saveAll base now cat pairs emptyStore) cat =
      pairs.map (fun p => (p.1, dictUp p.2 "saved_at" (Value.str now))) := by
    have h := getDir_saveAll base now cat hc pairs emptyStore hnd
      (by intro p _; rw [h0]; rfl)
    rw [h0] at h
    simpa using h
  set entryOf : String × Record → StoredEntry := fun p =>
    ⟨cat, p.1, pjoin (pjoin (pjoin base cat) p.1) "data.json", Value.str now,
      ((generateSummary cat
        (dictUp p.2 "saved_at" (Value.str now))).toOption.getD [])⟩
    with hentryOf
  have hmk : ∀ p ∈ pairs,
      (mkListEntry base cat p.1 (dictUp p.2 "saved_at" (Value.str now))).toOption =
        some (entryOf p) := by
    intro p hp
    obtain ⟨s, hs⟩ := hsum p hp
    unfold mkListEntry
    rw [hs, hentryOf]
    dsimp only
    rw [hs]
    dsimp only [Except.toOption]
    rw [dictGetD_dictUp_self]
    rfl
  have hlist : listSavedData base (saveAll base now cat pairs emptyStore) cat =
      .ok (pairs.map entryOf) := by
    have hc' : cat = "github" ∨ cat = "website" ∨ cat = "youtube" := hc
    unfold listSavedData
    rw [if_pos hc', hdir, List.filterMap_map]
    rw [filterMap_eq_map_of_forall pairs _ entryOf
      (by intro p hp; exact hmk p hp)]
  refine ⟨pairs.map entryOf, hlist, List.length_map _ _, ?_⟩
  intro p hp
  refine ⟨entryOf p, List.mem_map_of_mem entryOf hp, rfl, rfl, ?_⟩
  obtain ⟨s, hs⟩ := hsum p hp
  rw [hs, hentryOf]
  dsimp only
  rw [hs]
  rfl

/-- Claim C7, witness: saving two website records under distinct
identifiers lists exactly two entries with their summary projections
(the record without a `domain` field defaults to `"unknown"`). -/
theorem listing_completeness_witness :
    ∃ entries,
      listSavedData "/d" (saveAll "/d" "t0" "website"
          [("s1", []), ("s2", [("domain", Value.str "example.com")])]
          emptyStore) "website" =
        .ok entries ∧
      entries.length =
        ([("s1", ([] : Record)),
          ("s2", [("domain", Value.str "example.com")])].map Prod.fst).length ∧
      (∀ p ∈ [("s1", ([] : Record)),
          ("s2", [("domain", Value.str "example.com")])],
        ∃ e ∈ entries, e.identifier = p.1 ∧ e.saved_at = Value.str "t0" ∧
        generateSummary "website" (dictUp p.2 "saved_at" (Value.str "t0")) =
          .ok e.summary) := by
  have h := listing_completeness "/d" "t0" "website"
    [("s1", []), ("s2", [("domain", Value.str "example.com")])]
    (Or.inr (Or.inl rfl)) (by decide) (fun p _ => ⟨_, rfl⟩)
  simpa using h

end Scrappy
